import Mathlib

/-!
Verification of the bulk campaign dispatch pipeline of the email-sender
repository, shallowly embedded in Lean 4.

The embedded source files are:
  backend/src/services/bulkEmailSender.js   (sendCampaign, sendToRecipient,
    replaceTemplateVariables, updateCampaignStatus, logEmail)
  backend/src/services/progressTracker.js   (calculateProgress)
  backend/src/routes/campaigns.js           (POST /api/campaigns/:id/send)

Modelling conventions:
  - Database rows become structures; NOW() timestamps are a `now : Nat`
    parameter; NULL becomes `Option`.
  - The single campaign a dispatch run works on, its recipient rows and the
    email_logs table form a `SendState`.
  - The nodemailer transporter is an oracle `Transport`: `authOk` is the
    outcome of createTransporter + verifyTransporter, `send` gives the
    outcome of sendEmail per recipient id.
  - JS exceptions become `Except String`; IEEE doubles in the progress math
    are idealized as exact rationals `ℚ`.
  - Literal brace characters are written with the escapes \x7b and \x7d.
-/

namespace EmailSender

/-- The left brace character. -/
def lb : Char := '\x7b'

/-- The right brace character. -/
def rb : Char := '\x7d'

/-- One pass of JS String.replace with a global regex whose pattern is the
literal character string `p :: ps`: leftmost non-overlapping occurrences are
replaced by `rep`, scanning the original string left to right, and the
replacement text is never rescanned (exactly the semantics of
`result.replace(regex, value)` in replaceTemplateVariables for a key without
regex metacharacters — the only keys this system ever passes). -/
def replaceAllFrom (p : Char) (ps : List Char) (rep : List Char) : List Char → List Char
  | [] => []
  | c :: rest =>
    if (p :: ps).isPrefixOf (c :: rest) then
      rep ++ replaceAllFrom p ps rep (rest.drop ps.length)
    else c :: replaceAllFrom p ps rep rest
termination_by l => l.length
decreasing_by
  · simp [List.length_drop]; omega
  · simp

/-- `new RegExp("\\{\\{" + key + "\\}\\}", 'g')` replacement as used in
replaceTemplateVariables, for the literal token `pat`. The empty pattern
never arises: the token always starts with two braces. -/
def replaceAll (s pat rep : String) : String :=
  match pat.data with
  | [] => s
  | p :: ps => String.mk (replaceAllFrom p ps rep.data s.data)

/-- `result.replace(/\{\{[^}]+\}\}/g, '')` on a character list: at each
position a match requires two left braces, then a nonempty maximal run of
non-right-brace characters, then two right braces; a match is deleted and
scanning resumes after it, otherwise scanning advances one character. -/
def removePH : List Char → List Char
  | [] => []
  | [c] => [c]
  | c :: c2 :: rest2 =>
    if c = lb ∧ c2 = lb ∧ rest2.takeWhile (fun ch => ch ≠ rb) ≠ [] ∧
        (rest2.dropWhile (fun ch => ch ≠ rb)).take 2 = [rb, rb] then
      removePH ((rest2.dropWhile (fun ch => ch ≠ rb)).drop 2)
    else c :: removePH (c2 :: rest2)
termination_by l => l.length
decreasing_by
  · have h4 := (List.dropWhile_sublist (p := fun ch => ch ≠ rb) (l := rest2)).length_le
    simp [List.length_drop] at h4 ⊢
    omega
  · simp

/-- The cleanup pass of replaceTemplateVariables: remove every remaining
`\x7b\x7bkey\x7d\x7d` token. -/
def removePlaceholders (s : String) : String := String.mk (removePH s.data)

/-- The placeholder token `\x7b\x7bk\x7d\x7d` for a key. -/
def phToken (k : String) : String := String.mk (lb :: lb :: (k.data ++ [rb, rb]))

/-- replaceTemplateVariables(text, data) from bulkEmailSender.js.
`data` is the JS object as an association list in insertion order (a value
`none` models a null/undefined property). A falsy `text` (null or the empty
string) returns ""; otherwise every entry's literal token is globally
replaced by `value || ''` (null becomes the empty string), and finally all
remaining tokens are removed. Values are inserted verbatim: the JS
`$`-escape expansion of String.replace never fires on this system's data. -/
def replaceTemplateVariables (text : Option String) (data : List (String × Option String)) : String :=
  match text with
  | none => ""
  | some t =>
    if t = "" then ""
    else
      removePlaceholders
        (data.foldl (fun acc kv => replaceAll acc (phToken kv.1) (kv.2.getD "")) t)

/-- Join a list of strings with a separator between consecutive elements
(the shape of a template built around placeholder tokens). -/
def sepJoin (sep : String) : List String → String
  | [] => ""
  | [s] => s
  | s :: s2 :: rest => s ++ sep ++ sepJoin sep (s2 :: rest)

/-- Character-level sepJoin. -/
def sepJoinChars (sep : List Char) : List (List Char) → List Char
  | [] => []
  | [s] => s
  | s :: s2 :: rest => s ++ sep ++ sepJoinChars sep (s2 :: rest)

/-- A character list containing no brace character. -/
def FlatChars (l : List Char) : Prop := ∀ c ∈ l, c ≠ lb ∧ c ≠ rb

/-- A string containing no brace character, hence no placeholder syntax. -/
def Flat (s : String) : Prop := FlatChars s.data

instance (l : List Char) : Decidable (FlatChars l) := by
  unfold FlatChars; infer_instance

instance (s : String) : Decidable (Flat s) := by
  unfold Flat; infer_instance

/-- A placeholder match of `/\{\{[^}]+\}\}/` starts at the head of this
character list. -/
def phMatchAt : List Char → Prop
  | c :: c2 :: rest2 =>
    c = lb ∧ c2 = lb ∧ rest2.takeWhile (fun ch => ch ≠ rb) ≠ [] ∧
      (rest2.dropWhile (fun ch => ch ≠ rb)).take 2 = [rb, rb]
  | _ => False

instance instDecPhMatchAt : (l : List Char) → Decidable (phMatchAt l)
  | [] => isFalse fun h => h
  | [_] => isFalse fun h => h
  | _ :: _ :: _ => inferInstanceAs (Decidable (_ ∧ _ ∧ _ ∧ _))

/-- No suffix of the string starts a placeholder match: the cleanup regex
finds nothing to delete anywhere in `s` (this is how a malformed,
unterminated token fails to match). -/
def NoPHMatch (s : String) : Prop := ∀ t ∈ s.data.tails, ¬ phMatchAt t

instance (s : String) : Decidable (NoPHMatch s) := by
  unfold NoPHMatch; infer_instance

/-- campaigns.status values. -/
inductive CampaignStatus
  | draft
  | queued
  | sending
  | completed
  | failed
  | cancelled
  deriving DecidableEq

/-- campaign_recipients.status values. -/
inductive RecipientStatus
  | pending
  | sent
  | failed
  deriving DecidableEq

/-- The string stored in the status column, used in thrown error messages. -/
def statusName : CampaignStatus → String
  | .draft => "draft"
  | .queued => "queued"
  | .sending => "sending"
  | .completed => "completed"
  | .failed => "failed"
  | .cancelled => "cancelled"

/-- A campaign_recipients row. custom_fields is the JSON object as an
association list in key order; a `none` value models a JSON null (which JS
still counts as a defined property). -/
structure Recipient where
  id : Nat
  email : String
  name : Option String
  custom_fields : List (String × Option String)
  status : RecipientStatus
  sent_at : Option Nat
  error_message : Option String
  deriving DecidableEq

/-- A campaigns row (the columns sendCampaign, calculateProgress and the
send route read or write; updated_at carries no information and is not
modelled). -/
structure Campaign where
  id : Nat
  user_id : Nat
  subject : String
  email_body : String
  html_body : Option String
  status : CampaignStatus
  recipient_count : Nat
  sent_count : Nat
  failed_count : Nat
  started_at : Option Nat
  completed_at : Option Nat
  deriving DecidableEq

/-- An email_logs row as inserted by logEmail. -/
structure LogEntry where
  user_id : Nat
  campaign_id : Nat
  recipient_id : Nat
  recipient_email : String
  subject : String
  status : String
  message_id : Option String
  error_message : Option String
  deriving DecidableEq

/-- The database state a dispatch run works on: the campaign row, its
campaign_recipients rows (kept in id order, so the ORDER BY id of the
pending query is the identity on this representation) and the email_logs
table. -/
structure SendState where
  campaign : Campaign
  recipients : List Recipient
  logs : List LogEntry
  deriving DecidableEq

/-- Oracle for the outbound SMTP collaborator. `authOk` is whether
createTransporter + verifyTransporter succeed for this user; `send i` is
the outcome of sendEmail for recipient id `i`: a message id, or the error
message of the thrown exception. -/
structure Transport where
  authOk : Bool
  send : Nat → Except String String

/-- updateCampaignStatus(campaignId, status, startedAt, completedAt) on one
campaign row: status is always written; started_at and completed_at are
written only when a (truthy) timestamp is passed. -/
def updateCampaignStatus (c : Campaign) (status : CampaignStatus)
    (startedAt completedAt : Option Nat) : Campaign :=
  { c with
    status := status
    started_at := match startedAt with | some t => some t | none => c.started_at
    completed_at := match completedAt with | some t => some t | none => c.completed_at }

/-- UPDATE campaigns ... WHERE id = cid applied to the state: the row is
touched only when its id matches. -/
def applyCampaignUpdate (st : SendState) (cid : Nat) (f : Campaign → Campaign) : SendState :=
  if st.campaign.id = cid then { st with campaign := f st.campaign } else st

/-- UPDATE campaign_recipients SET status='sent', sent_at=NOW() WHERE id=rid:
an unconditional by-id write (no status guard in the SQL). -/
def markSent (rs : List Recipient) (rid : Nat) (now : Nat) : List Recipient :=
  rs.map fun x => if x.id = rid then { x with status := .sent, sent_at := some now } else x

/-- UPDATE campaign_recipients SET status='failed', error_message=msg
WHERE id=rid: an unconditional by-id write (no status guard in the SQL). -/
def markFailed (rs : List Recipient) (rid : Nat) (msg : String) : List Recipient :=
  rs.map fun x => if x.id = rid then { x with status := .failed, error_message := some msg } else x

/-- SELECT ... FROM campaign_recipients WHERE campaign_id AND status='pending'
ORDER BY id. -/
def listPending (st : SendState) : List Recipient :=
  st.recipients.filter fun r => r.status = .pending

/-- The recipientData object of sendToRecipient:
`{name: recipient.name || '', email: recipient.email, ...customFields}`.
JS object spread overwrites an existing key in place and appends a new one. -/
def setField (l : List (String × Option String)) (k : String) (v : Option String) :
    List (String × Option String) :=
  if l.any (fun p => p.1 = k) then l.map (fun p => if p.1 = k then (k, v) else p)
  else l ++ [(k, v)]

/-- Spread a field object onto a base object, key by key in insertion order. -/
def spreadFields (base : List (String × Option String)) :
    List (String × Option String) → List (String × Option String)
  | [] => base
  | (k, v) :: rest => spreadFields (setField base k v) rest

/-- The template data for one recipient. -/
def recipientData (r : Recipient) : List (String × Option String) :=
  spreadFields [("name", some (r.name.getD "")), ("email", some r.email)] r.custom_fields

/-- The base subject of sendToRecipient: the custom_subject custom field if
the recipient defines one (even as null), otherwise the campaign subject. -/
def effectiveSubject (c : Campaign) (r : Recipient) : Option String :=
  match r.custom_fields.find? (fun p => p.1 = "custom_subject") with
  | some kv => kv.2
  | none => some c.subject

/-- The rendered subject sendToRecipient passes to sendEmail and logEmail. -/
def renderedSubject (c : Campaign) (r : Recipient) : String :=
  replaceTemplateVariables (effectiveSubject c r) (recipientData r)

/-- One iteration of the sendCampaign recipient loop, carrying the loop's
local sentCount and failedCount. On success the recipient row is marked
sent, the campaign sent_count is incremented and sendToRecipient appends a
'sent' log with the rendered subject; on a thrown send error the row is
marked failed with the error text, failed_count is incremented and a
'failed' log with the raw campaign subject is appended. The sleep(1000)
pacing has no effect on state. -/
def dispatchStep (tr : Transport) (now uid : Nat) (acc : SendState × Nat × Nat)
    (r : Recipient) : SendState × Nat × Nat :=
  match acc with
  | (st, s, f) =>
    match tr.send r.id with
    | .ok msgId =>
      ({ campaign := { st.campaign with sent_count := st.campaign.sent_count + 1 }
         recipients := markSent st.recipients r.id now
         logs := st.logs ++
           [⟨uid, st.campaign.id, r.id, r.email, renderedSubject st.campaign r,
             "sent", some msgId, none⟩] },
       s + 1, f)
    | .error e =>
      ({ campaign := { st.campaign with failed_count := st.campaign.failed_count + 1 }
         recipients := markFailed st.recipients r.id e
         logs := st.logs ++
           [⟨uid, st.campaign.id, r.id, r.email, st.campaign.subject,
             "failed", none, some e⟩] },
       s, f + 1)

/-- The effect of one loop iteration on a single ledger row: when the row's
id is the processed recipient's id it is marked sent or failed according to
the transport outcome, otherwise it is untouched. The fold of dispatchStep
acts on the ledger as the map of this per-row action. -/
def rowStep (tr : Transport) (now : Nat) (x r : Recipient) : Recipient :=
  if x.id = r.id then
    match tr.send r.id with
    | .ok _ => { x with status := .sent, sent_at := some now }
    | .error e => { x with status := .failed, error_message := some e }
  else x

/-- sendCampaign(campaignId, userId) from bulkEmailSender.js. Returns the
final database state together with the function's outcome: `.ok (sent,
failed)` for a normal return, `.error msg` for a throw. The outer catch
block's updateCampaignStatus(campaignId, 'failed') is part of each error
path. -/
def sendCampaign (tr : Transport) (now cid uid : Nat) (st : SendState) :
    SendState × Except String (Nat × Nat) :=
  if st.campaign.id = cid ∧ st.campaign.user_id = uid then
    if st.campaign.status ≠ CampaignStatus.queued then
      (applyCampaignUpdate st cid (fun c => updateCampaignStatus c .failed none none),
       .error ("Cannot send campaign with status: " ++ statusName st.campaign.status))
    else if listPending st = [] then
      (applyCampaignUpdate st cid (fun c => updateCampaignStatus c .completed (some now) none),
       .ok (0, 0))
    else if tr.authOk = false then
      (applyCampaignUpdate
        (applyCampaignUpdate st cid (fun c => updateCampaignStatus c .failed none none))
        cid (fun c => updateCampaignStatus c .failed none none),
       .error "SMTP connection failed")
    else
      let st1 := applyCampaignUpdate st cid (fun c => updateCampaignStatus c .sending (some now) none)
      let out := (listPending st).foldl (dispatchStep tr now uid) (st1, 0, 0)
      (applyCampaignUpdate out.1 cid (fun c => updateCampaignStatus c .completed none (some now)),
       .ok (out.2.1, out.2.2))
  else
    (applyCampaignUpdate st cid (fun c => updateCampaignStatus c .failed none none),
     .error "Campaign not found")

/-- The state of the sendCampaign loop after its first k iterations on the
main path: the campaign has been set to 'sending' with started_at = now,
and the first k pending recipients have been processed. -/
def midLoopState (tr : Transport) (now cid uid k : Nat) (st : SendState) :
    SendState × Nat × Nat :=
  ((listPending st).take k).foldl (dispatchStep tr now uid)
    (applyCampaignUpdate st cid (fun c => updateCampaignStatus c .sending (some now) none), 0, 0)

/-- Number of rows still pending in a recipient table. -/
def countPending (rs : List Recipient) : Nat :=
  (rs.filter fun r => r.status = .pending).length

/-- The HTTP response of the send route, as seen by the triggering caller. -/
inductive RouteResponse
  | ok (message : String)
  | badRequest (error message : String)
  | notFound (error message : String)
  deriving DecidableEq

/-- The synchronous part of POST /api/campaigns/:id/send: validations, the
UPDATE to status 'queued', and the immediate JSON response. The returned
Bool says whether a background sendCampaign was scheduled via setImmediate;
the response is produced before that background task runs.
`smtpConfigured` models the smtp_configs row existing for the user. -/
def startCampaignRoute (cid uid : Nat) (smtpConfigured : Bool) (st : SendState) :
    SendState × RouteResponse × Bool :=
  if st.campaign.id = cid ∧ st.campaign.user_id = uid then
    if st.campaign.status ≠ CampaignStatus.draft then
      (st, .badRequest "Cannot send campaign"
        ("Campaign status is " ++ statusName st.campaign.status ++
          ". Only draft campaigns can be sent."), false)
    else if smtpConfigured = false then
      (st, .badRequest "No SMTP configuration"
        "Please configure your Gmail SMTP settings before sending campaigns", false)
    else
      (applyCampaignUpdate st cid (fun c => { c with status := .queued }),
       .ok "Campaign sending started", true)
  else
    (st, .notFound "Campaign not found"
      "Campaign not found or you do not have permission to access it", false)

/-- The setImmediate background task: run sendCampaign and swallow any
thrown error (the route only console.errors it). -/
def backgroundSend (tr : Transport) (now cid uid : Nat) (st : SendState) : SendState :=
  (sendCampaign tr now cid uid st).1

/-- The whole trigger flow: the route's synchronous response, and the state
after the scheduled background dispatch (if any) has run. -/
def startCampaignSend (tr : Transport) (now cid uid : Nat) (smtpConfigured : Bool)
    (st : SendState) : SendState × RouteResponse :=
  match startCampaignRoute cid uid smtpConfigured st with
  | (st1, resp, scheduled) =>
    (if scheduled then backgroundSend tr now cid uid st1 else st1, resp)

/-- The progress record calculateProgress returns. -/
structure ProgressStats where
  total_recipients : Nat
  sent : Nat
  failed : Nat
  pending : Int
  percentage : ℚ
  success_rate : ℚ
  deriving DecidableEq

/-- Math.round on the nonnegative numbers used here: round half toward
positive infinity. -/
def jsRound (x : ℚ) : ℤ := ⌊x + 1 / 2⌋

/-- parseFloat(x.toFixed(4)) on a nonnegative number: round to 4 decimal
places, half toward positive infinity. -/
def toFixed4 (x : ℚ) : ℚ := (jsRound (x * 10000) : ℚ) / 10000

/-- calculateProgress(campaign) from progressTracker.js, with IEEE doubles
idealized as exact rationals. Both divisions are guarded: total = 0 yields
percentage 0 and sent + failed = 0 yields success_rate 0. -/
def calculateProgress (c : Campaign) : ProgressStats :=
  { total_recipients := c.recipient_count
    sent := c.sent_count
    failed := c.failed_count
    pending := (c.recipient_count : Int) - c.sent_count - c.failed_count
    percentage :=
      if 0 < c.recipient_count then
        (jsRound (((c.sent_count : ℚ) + c.failed_count) / c.recipient_count * 100 * 10) : ℚ) / 10
      else 0
    success_rate :=
      if 0 < c.sent_count + c.failed_count then
        toFixed4 ((c.sent_count : ℚ) / ((c.sent_count : ℚ) + c.failed_count))
      else 0 }

/-! Concrete states used as test inputs for witnesses and counterexamples. -/

/-- A fresh queued campaign with three pending recipients. -/
def exCampaign : Campaign :=
  ⟨1, 1, "Hi \x7b\x7bname\x7d\x7d", "Body", none, .queued, 3, 0, 0, none, none⟩

/-- Three pending recipient rows for exCampaign. -/
def exRecipients : List Recipient :=
  [⟨1, "a@x.com", some "Ana", [], .pending, none, none⟩,
   ⟨2, "b@x.com", some "Bob", [], .pending, none, none⟩,
   ⟨3, "c@x.com", none, [], .pending, none, none⟩]

/-- The database state of a fresh queued campaign. -/
def exState : SendState := ⟨exCampaign, exRecipients, []⟩

/-- A transport whose auth succeeds and where recipient 2 is rejected. -/
def exTransport : Transport :=
  ⟨true, fun i => if i = 2 then .error "Recipient address rejected" else .ok "msg-id"⟩

/-- A transport whose SMTP auth handshake fails. -/
def exBadTransport : Transport := ⟨false, fun _ => .error "Invalid Gmail credentials"⟩

/-- A terminal (failed) recipient row. -/
def exFailedRecipient : Recipient := ⟨7, "f@x.com", none, [], .failed, none, some "bounced"⟩

/-- An already completed campaign with one sent recipient. -/
def exCompletedState : SendState :=
  ⟨⟨1, 1, "Subj", "Body", none, .completed, 1, 1, 0, some 10, some 20⟩,
   [⟨1, "a@x.com", some "Ana", [], .sent, some 11, none⟩], []⟩

/-- A queued campaign whose recipients are all already terminal. -/
def exNoPendingState : SendState :=
  ⟨⟨1, 1, "Subj", "Body", none, .queued, 1, 1, 0, none, none⟩,
   [⟨1, "a@x.com", some "Ana", [], .sent, some 5, none⟩], []⟩

/-- A draft campaign with one pending recipient, as the send route sees it. -/
def exDraftState : SendState :=
  ⟨⟨3, 1, "Subj", "Body", none, .draft, 1, 0, 0, none, none⟩,
   [⟨1, "a@x.com", some "Ana", [], .pending, none, none⟩], []⟩

/-- A campaign row with 3 recipients, 1 sent and 2 failed. -/
def exProgressCampaign : Campaign :=
  ⟨2, 1, "Subj", "Body", none, .sending, 3, 1, 2, some 0, none⟩

/-- A campaign row with zero recipients. -/
def exEmptyCampaign : Campaign :=
  ⟨9, 1, "Subj", "Body", none, .queued, 0, 0, 0, none, none⟩

/-! Helper lemmas about the template renderer. -/

theorem replaceAllFrom_cons (p : Char) (ps rep : List Char) (c : Char) (rest : List Char) :
    replaceAllFrom p ps rep (c :: rest) =
      if (p :: ps).isPrefixOf (c :: rest) then
        rep ++ replaceAllFrom p ps rep (rest.drop ps.length)
      else c :: replaceAllFrom p ps rep rest := by
  rw [replaceAllFrom]

theorem flatChars_cons_head {c : Char} {a : List Char} (h : FlatChars (c :: a)) : c ≠ lb ∧ c ≠ rb :=
  h c (List.mem_cons_self c a)

theorem flatChars_cons_tail {c : Char} {a : List Char} (h : FlatChars (c :: a)) : FlatChars a :=
  fun x hx => h x (List.mem_cons_of_mem c hx)

theorem flatChars_append {a b : List Char} :
    FlatChars (a ++ b) ↔ FlatChars a ∧ FlatChars b := by
  simp only [FlatChars, List.mem_append, or_imp, forall_and]
  tauto

theorem replaceAllFrom_flat_skip (ps rep t : List Char) (a : List Char) (ha : FlatChars a) :
    replaceAllFrom lb ps rep (a ++ t) = a ++ replaceAllFrom lb ps rep t := by
  induction a with
  | nil => simp
  | cons c a ih =>
    have hc : c ≠ lb := (flatChars_cons_head ha).1
    have hnp : ¬((lb :: ps).isPrefixOf (c :: (a ++ t)) = true) := by
      intro hpre
      have h2 := List.isPrefixOf_iff_prefix.mp hpre
      rw [List.cons_prefix_cons] at h2
      exact hc h2.1.symm
    rw [List.cons_append, replaceAllFrom_cons, if_neg hnp, ih (flatChars_cons_tail ha),
      List.cons_append]

theorem replaceAllFrom_match (ps rep t : List Char) :
    replaceAllFrom lb ps rep ((lb :: ps) ++ t) = rep ++ replaceAllFrom lb ps rep t := by
  have hp : (lb :: ps).isPrefixOf (lb :: (ps ++ t)) = true := by
    refine List.isPrefixOf_iff_prefix.mpr ?_
    rw [List.cons_prefix_cons]
    exact ⟨rfl, List.prefix_append ps t⟩
  rw [List.cons_append, replaceAllFrom_cons, if_pos hp, List.drop_left]

theorem replaceAllFrom_flat_id (ps rep t : List Char) (ht : FlatChars t) :
    replaceAllFrom lb ps rep t = t := by
  have h := replaceAllFrom_flat_skip ps rep [] t ht
  simpa [replaceAllFrom] using h

theorem replaceAllFrom_sepJoin (kD rep : List Char) (segs : List (List Char))
    (hsegs : ∀ s ∈ segs, FlatChars s) :
    replaceAllFrom lb (lb :: (kD ++ [rb, rb])) rep
      (sepJoinChars (lb :: lb :: (kD ++ [rb, rb])) segs) = sepJoinChars rep segs := by
  induction segs with
  | nil => simp [sepJoinChars, replaceAllFrom]
  | cons s rest ih =>
    cases rest with
    | nil =>
      simpa [sepJoinChars] using
        replaceAllFrom_flat_id (lb :: (kD ++ [rb, rb])) rep s (hsegs s (by simp))
    | cons s2 rest2 =>
      have hs : FlatChars s := hsegs s (by simp)
      have ih2 := ih (fun x hx => hsegs x (by simp [hx]))
      have hm := replaceAllFrom_match (lb :: (kD ++ [rb, rb])) rep
        (sepJoinChars (lb :: lb :: (kD ++ [rb, rb])) (s2 :: rest2))
      simp only [List.cons_append, List.append_assoc, List.nil_append] at hm
      rw [sepJoinChars, List.append_assoc, replaceAllFrom_flat_skip _ _ _ s hs]
      simp only [List.cons_append, List.append_assoc, List.nil_append]
      rw [hm, ih2, sepJoinChars]
      simp [List.append_assoc]

theorem removePH_cons_cons (c c2 : Char) (rest2 : List Char) :
    removePH (c :: c2 :: rest2) =
      if c = lb ∧ c2 = lb ∧ rest2.takeWhile (fun ch => ch ≠ rb) ≠ [] ∧
          (rest2.dropWhile (fun ch => ch ≠ rb)).take 2 = [rb, rb] then
        removePH ((rest2.dropWhile (fun ch => ch ≠ rb)).drop 2)
      else c :: removePH (c2 :: rest2) := by
  rw [removePH]

theorem removePH_flat_skip (a t : List Char) (ha : FlatChars a) :
    removePH (a ++ t) = a ++ removePH t := by
  induction a with
  | nil => simp
  | cons c a ih =>
    have hc : c ≠ lb := (flatChars_cons_head ha).1
    rw [List.cons_append]
    cases h : a ++ t with
    | nil =>
      rcases List.append_eq_nil.mp h with ⟨ha0, ht0⟩
      subst ha0; subst ht0
      simp [removePH]
    | cons c2 r2 =>
      rw [removePH_cons_cons, if_neg (fun hcon => hc hcon.1), ← h,
        ih (flatChars_cons_tail ha), List.cons_append]

theorem removePH_flat_id (t : List Char) (ht : FlatChars t) : removePH t = t := by
  have h := removePH_flat_skip t [] ht
  simpa [removePH] using h

theorem takeWhile_ne_rb_flat (kD : List Char) (hk : FlatChars kD) :
    (kD.takeWhile fun ch => ch ≠ rb) = kD := by
  induction kD with
  | nil => simp
  | cons c a ih =>
    have hc : (fun ch => decide (ch ≠ rb)) c = true := by
      simpa using (flatChars_cons_head hk).2
    rw [List.takeWhile_cons_of_pos (p := fun ch => decide (ch ≠ rb)) hc,
      ih (flatChars_cons_tail hk)]

theorem dropWhile_ne_rb_flat (kD : List Char) (hk : FlatChars kD) :
    (kD.dropWhile fun ch => ch ≠ rb) = [] := by
  induction kD with
  | nil => simp
  | cons c a ih =>
    have hc : (fun ch => decide (ch ≠ rb)) c = true := by
      simpa using (flatChars_cons_head hk).2
    rw [List.dropWhile_cons_of_pos (p := fun ch => decide (ch ≠ rb)) hc,
      ih (flatChars_cons_tail hk)]

theorem takeWhile_token (kD t : List Char) (hk : FlatChars kD) :
    ((kD ++ rb :: rb :: t).takeWhile fun ch => ch ≠ rb) = kD := by
  rw [List.takeWhile_append, takeWhile_ne_rb_flat kD hk]
  simp

theorem dropWhile_token (kD t : List Char) (hk : FlatChars kD) :
    ((kD ++ rb :: rb :: t).dropWhile fun ch => ch ≠ rb) = rb :: rb :: t := by
  rw [List.dropWhile_append, dropWhile_ne_rb_flat kD hk]
  simp

theorem removePH_token (kD t : List Char) (hk : kD ≠ []) (hkf : FlatChars kD) :
    removePH (lb :: lb :: (kD ++ rb :: rb :: t)) = removePH t := by
  rw [removePH_cons_cons, if_pos]
  · rw [dropWhile_token kD t hkf]
    simp
  · refine ⟨rfl, rfl, ?_, ?_⟩
    · rw [takeWhile_token kD t hkf]; exact hk
    · rw [dropWhile_token kD t hkf]; simp

theorem removePH_sepJoin (kD : List Char) (segs : List (List Char)) (hk : kD ≠ [])
    (hkf : FlatChars kD) (hsegs : ∀ s ∈ segs, FlatChars s) :
    removePH (sepJoinChars (lb :: lb :: (kD ++ [rb, rb])) segs) = sepJoinChars [] segs := by
  induction segs with
  | nil => simp [sepJoinChars, removePH]
  | cons s rest ih =>
    cases rest with
    | nil => simpa [sepJoinChars] using removePH_flat_id s (hsegs s (by simp))
    | cons s2 rest2 =>
      have hs : FlatChars s := hsegs s (by simp)
      have ih2 := ih (fun x hx => hsegs x (by simp [hx]))
      rw [sepJoinChars, List.append_assoc, removePH_flat_skip s _ hs]
      have htok := removePH_token kD
        (sepJoinChars (lb :: lb :: (kD ++ [rb, rb])) (s2 :: rest2)) hk hkf
      have hshape : (lb :: lb :: (kD ++ [rb, rb])) ++
          sepJoinChars (lb :: lb :: (kD ++ [rb, rb])) (s2 :: rest2) =
          lb :: lb :: (kD ++ rb :: rb ::
            sepJoinChars (lb :: lb :: (kD ++ [rb, rb])) (s2 :: rest2)) := by
        simp
      rw [hshape, htok, ih2, sepJoinChars]
      simp [sepJoinChars]

theorem sepJoinChars_flat (rep : List Char) (hrep : FlatChars rep)
    (segs : List (List Char)) (hsegs : ∀ s ∈ segs, FlatChars s) :
    FlatChars (sepJoinChars rep segs) := by
  induction segs with
  | nil => intro c hc; simp [sepJoinChars] at hc
  | cons s rest ih =>
    cases rest with
    | nil => simpa [sepJoinChars] using hsegs s (by simp)
    | cons s2 rest2 =>
      have hs : FlatChars s := hsegs s (by simp)
      have ih2 := ih (fun x hx => hsegs x (by simp [hx]))
      rw [sepJoinChars]
      exact flatChars_append.mpr ⟨flatChars_append.mpr ⟨hs, hrep⟩, ih2⟩

theorem removePH_of_no_match (l : List Char) (h : ∀ t, t <:+ l → ¬ phMatchAt t) :
    removePH l = l := by
  induction l with
  | nil => simp [removePH]
  | cons c rest ih =>
    cases rest with
    | nil => simp [removePH]
    | cons c2 r2 =>
      have hnm : ¬ phMatchAt (c :: c2 :: r2) := h _ (List.suffix_refl _)
      rw [removePH_cons_cons, if_neg (by simpa [phMatchAt] using hnm),
        ih (fun t ht => h t (ht.trans (List.suffix_cons c (c2 :: r2))))]

theorem sepJoin_data (sep : String) (segs : List String) :
    (sepJoin sep segs).data = sepJoinChars sep.data (segs.map String.data) := by
  induction segs with
  | nil => simp [sepJoin, sepJoinChars]
  | cons s rest ih =>
    cases rest with
    | nil => simp [sepJoin, sepJoinChars]
    | cons s2 r2 => simp [sepJoin, sepJoinChars, String.data_append, ih]

theorem phToken_data (k : String) : (phToken k).data = lb :: lb :: (k.data ++ [rb, rb]) := rfl

theorem string_mk_data (s : String) : String.mk s.data = s := rfl

theorem sepJoin_ph_empty (k v : String) (segs : List String)
    (h : sepJoin (phToken k) segs = "") : sepJoin v segs = "" := by
  cases segs with
  | nil => rfl
  | cons s rest =>
    cases rest with
    | nil => exact h
    | cons s2 r2 =>
      exfalso
      have hd := congrArg String.data h
      rw [sepJoin_data, phToken_data] at hd
      simp [sepJoinChars] at hd

theorem replaceAll_phToken (s k rep : String) :
    replaceAll s (phToken k) rep =
      String.mk (replaceAllFrom lb (lb :: (k.data ++ [rb, rb])) rep.data s.data) := rfl

theorem flat_map_data {segs : List String} (hsegs : ∀ s ∈ segs, Flat s) :
    ∀ sD ∈ segs.map String.data, FlatChars sD := by
  intro sD hsD
  rcases List.mem_map.mp hsD with ⟨s, hs, rfl⟩
  exact hsegs s hs

theorem render_single_key (k v : String) (segs : List String)
    (hsegs : ∀ s ∈ segs, Flat s) (hv : Flat v) :
    replaceTemplateVariables (some (sepJoin (phToken k) segs)) [(k, some v)] = sepJoin v segs := by
  by_cases hT : sepJoin (phToken k) segs = ""
  · rw [hT, sepJoin_ph_empty k v segs hT]
    simp [replaceTemplateVariables]
  · have hmap := flat_map_data hsegs
    simp only [replaceTemplateVariables, if_neg hT, List.foldl_cons, List.foldl_nil,
      Option.getD_some]
    rw [replaceAll_phToken]
    have hdata : (sepJoin (phToken k) segs).data =
        sepJoinChars (lb :: lb :: (k.data ++ [rb, rb])) (segs.map String.data) := by
      rw [sepJoin_data, phToken_data]
    rw [hdata, replaceAllFrom_sepJoin k.data v.data (segs.map String.data) hmap]
    have hflat := sepJoinChars_flat v.data hv (segs.map String.data) hmap
    have hrp : removePlaceholders (String.mk (sepJoinChars v.data (segs.map String.data))) =
        String.mk (removePH (sepJoinChars v.data (segs.map String.data))) := rfl
    rw [hrp, removePH_flat_id _ hflat, ← sepJoin_data, string_mk_data]

theorem render_no_fields (T : String) :
    replaceTemplateVariables (some T) [] = removePlaceholders T := by
  by_cases hT : T = ""
  · simp [replaceTemplateVariables, hT, removePlaceholders, removePH]
  · simp [replaceTemplateVariables, hT]

theorem removePlaceholders_sepJoin (k : String) (segs : List String)
    (hk : k ≠ "") (hkf : Flat k) (hsegs : ∀ s ∈ segs, Flat s) :
    removePlaceholders (sepJoin (phToken k) segs) = sepJoin "" segs := by
  have hmap := flat_map_data hsegs
  have hkD : k.data ≠ [] := by
    intro h0
    exact hk (by rw [← string_mk_data k, h0])
  have hrp : removePlaceholders (sepJoin (phToken k) segs) =
      String.mk (removePH ((sepJoin (phToken k) segs).data)) := rfl
  rw [hrp, sepJoin_data, phToken_data,
    removePH_sepJoin k.data (segs.map String.data) hkD hkf hmap]
  have h0 : sepJoinChars [] (segs.map String.data) =
      sepJoinChars ("".data) (segs.map String.data) := rfl
  rw [h0, ← sepJoin_data, string_mk_data]

theorem removePlaceholders_no_match (T : String) (hnm : NoPHMatch T) :
    removePlaceholders T = T := by
  have h := removePH_of_no_match T.data
    (fun t ht => hnm t ((List.mem_tails t T.data).mpr ht))
  rw [removePlaceholders, h]

/-- C4: render substitutes every occurrence of a placeholder whose key is
present in the field map with that field's value: a template made of flat
segments separated by occurrences of the token of key k renders, under
[(k, v)], to the same segments separated by v. The key match is
case-sensitive ("\x7b\x7bName\x7d\x7d" is not substituted by key "name"),
and a null field value is treated as the empty string; the spec's concrete
example "Hello \x7b\x7bname\x7d\x7d, id \x7b\x7bmissing\x7d\x7d" with
fields name = "Ana" renders to "Hello Ana, id ". -/
theorem C4_render_substitutes_present_keys (k v : String) (segs : List String)
    (hsegs : ∀ s ∈ segs, Flat s) (hv : Flat v) :
    replaceTemplateVariables (some (sepJoin (phToken k) segs)) [(k, some v)] = sepJoin v segs ∧
    replaceTemplateVariables (some "Hello \x7b\x7bname\x7d\x7d, id \x7b\x7bmissing\x7d\x7d")
      [("name", some "Ana")] = "Hello Ana, id " ∧
    replaceTemplateVariables (some "\x7b\x7bName\x7d\x7d") [("name", some "X")] = "" ∧
    replaceTemplateVariables (some "\x7b\x7bName\x7d\x7d-\x7b\x7bname\x7d\x7d")
      [("Name", some "A"), ("name", some "b")] = "A-b" ∧
    replaceTemplateVariables (some "x\x7b\x7bmail\x7d\x7dy") [("mail", none)] = "xy" := by
  refine ⟨render_single_key k v segs hsegs hv, ?_, ?_, ?_, ?_⟩ <;>
    simp [replaceTemplateVariables, removePlaceholders, replaceAll, phToken, removePH,
      replaceAllFrom, lb, rb, String.ext_iff]

theorem C4_witness :
    replaceTemplateVariables (some (sepJoin (phToken "name") ["Dear ", ", welcome"]))
      [("name", some "Ana")] = sepJoin "Ana" ["Dear ", ", welcome"] ∧
    replaceTemplateVariables (some "Hello \x7b\x7bname\x7d\x7d, id \x7b\x7bmissing\x7d\x7d")
      [("name", some "Ana")] = "Hello Ana, id " ∧
    replaceTemplateVariables (some "\x7b\x7bName\x7d\x7d") [("name", some "X")] = "" ∧
    replaceTemplateVariables (some "\x7b\x7bName\x7d\x7d-\x7b\x7bname\x7d\x7d")
      [("Name", some "A"), ("name", some "b")] = "A-b" ∧
    replaceTemplateVariables (some "x\x7b\x7bmail\x7d\x7dy") [("mail", none)] = "xy" :=
  C4_render_substitutes_present_keys "name" "Ana" ["Dear ", ", welcome"]
    (by decide) (by decide)

/-- C5: rendering with an empty field map is exactly the cleanup pass: every
well-formed placeholder is removed (a token template collapses to its flat
segments joined by the empty string, never left literal), while a string in
which the cleanup regex finds no match — in particular the unterminated
token "\x7b\x7bname" — is left untouched verbatim. -/
theorem C5_render_empty_fields_removes_placeholders (T k : String) (segs : List String)
    (hnm : NoPHMatch T) (hk : k ≠ "") (hkf : Flat k) (hsegs : ∀ s ∈ segs, Flat s) :
    replaceTemplateVariables (some T) [] = removePlaceholders T ∧
    replaceTemplateVariables (some (sepJoin (phToken k) segs)) [] = sepJoin "" segs ∧
    removePlaceholders T = T ∧
    replaceTemplateVariables (some "\x7b\x7bname") [] = "\x7b\x7bname" := by
  refine ⟨render_no_fields T, ?_, removePlaceholders_no_match T hnm, ?_⟩
  · rw [render_no_fields, removePlaceholders_sepJoin k segs hk hkf hsegs]
  · simp [replaceTemplateVariables, removePlaceholders, removePH, lb, rb, String.ext_iff]

theorem C5_witness :
    replaceTemplateVariables (some "\x7b\x7bname") [] = removePlaceholders "\x7b\x7bname" ∧
    replaceTemplateVariables (some (sepJoin (phToken "name") ["a ", " b"])) [] =
      sepJoin "" ["a ", " b"] ∧
    removePlaceholders "\x7b\x7bname" = "\x7b\x7bname" ∧
    replaceTemplateVariables (some "\x7b\x7bname") [] = "\x7b\x7bname" :=
  C5_render_empty_fields_removes_placeholders "\x7b\x7bname" "name" ["a ", " b"]
    (by decide) (by decide) (by decide) (by decide)

/-! Helper lemmas about the dispatch loop. -/

theorem rowStep_id (tr : Transport) (now : Nat) (x r : Recipient) :
    (rowStep tr now x r).id = x.id := by
  simp only [rowStep]
  split
  · cases tr.send r.id <;> rfl
  · rfl

theorem rowStep_of_ne (tr : Transport) (now : Nat) (x r : Recipient) (h : x.id ≠ r.id) :
    rowStep tr now x r = x := by
  simp [rowStep, h]

theorem rowStep_terminal (tr : Transport) (now : Nat) (x r : Recipient) (h : x.id = r.id) :
    (rowStep tr now x r).status = .sent ∨ (rowStep tr now x r).status = .failed := by
  simp only [rowStep, if_pos h]
  cases tr.send r.id
  · right; rfl
  · left; rfl

theorem dispatchStep_recipients (tr : Transport) (now uid : Nat) (st : SendState)
    (s f : Nat) (r : Recipient) :
    ((dispatchStep tr now uid (st, s, f) r).1).recipients =
      st.recipients.map (fun x => rowStep tr now x r) := by
  cases h : tr.send r.id <;>
    simp [dispatchStep, h, markSent, markFailed, rowStep]

theorem dispatchStep_campaign_id (tr : Transport) (now uid : Nat) (st : SendState)
    (s f : Nat) (r : Recipient) :
    ((dispatchStep tr now uid (st, s, f) r).1).campaign.id = st.campaign.id := by
  cases h : tr.send r.id <;> simp [dispatchStep, h]

theorem dispatchStep_campaign_recipient_count (tr : Transport) (now uid : Nat)
    (st : SendState) (s f : Nat) (r : Recipient) :
    ((dispatchStep tr now uid (st, s, f) r).1).campaign.recipient_count =
      st.campaign.recipient_count := by
  cases h : tr.send r.id <;> simp [dispatchStep, h]

theorem dispatchStep_counts (tr : Transport) (now uid : Nat) (st : SendState)
    (s f : Nat) (r : Recipient) :
    ((dispatchStep tr now uid (st, s, f) r).1).campaign.sent_count +
      ((dispatchStep tr now uid (st, s, f) r).1).campaign.failed_count =
      st.campaign.sent_count + st.campaign.failed_count + 1 := by
  cases h : tr.send r.id <;> simp [dispatchStep, h] <;> omega

theorem foldl_dispatch_recipients (tr : Transport) (now uid : Nat) (ps : List Recipient) :
    ∀ (st : SendState) (s f : Nat),
      ((ps.foldl (dispatchStep tr now uid) (st, s, f)).1).recipients =
        st.recipients.map (fun x => ps.foldl (rowStep tr now) x) := by
  induction ps with
  | nil => intro st s f; simp
  | cons r rest ih =>
    intro st s f
    have heta : dispatchStep tr now uid (st, s, f) r =
        ((dispatchStep tr now uid (st, s, f) r).1,
         (dispatchStep tr now uid (st, s, f) r).2.1,
         (dispatchStep tr now uid (st, s, f) r).2.2) := rfl
    rw [List.foldl_cons, heta, ih, dispatchStep_recipients, List.map_map]
    rfl

theorem foldl_dispatch_campaign_id (tr : Transport) (now uid : Nat) (ps : List Recipient) :
    ∀ (st : SendState) (s f : Nat),
      ((ps.foldl (dispatchStep tr now uid) (st, s, f)).1).campaign.id = st.campaign.id := by
  induction ps with
  | nil => intro st s f; rfl
  | cons r rest ih =>
    intro st s f
    have heta : dispatchStep tr now uid (st, s, f) r =
        ((dispatchStep tr now uid (st, s, f) r).1,
         (dispatchStep tr now uid (st, s, f) r).2.1,
         (dispatchStep tr now uid (st, s, f) r).2.2) := rfl
    rw [List.foldl_cons, heta, ih, dispatchStep_campaign_id]

theorem foldl_dispatch_campaign_recipient_count (tr : Transport) (now uid : Nat)
    (ps : List Recipient) :
    ∀ (st : SendState) (s f : Nat),
      ((ps.foldl (dispatchStep tr now uid) (st, s, f)).1).campaign.recipient_count =
        st.campaign.recipient_count := by
  induction ps with
  | nil => intro st s f; rfl
  | cons r rest ih =>
    intro st s f
    have heta : dispatchStep tr now uid (st, s, f) r =
        ((dispatchStep tr now uid (st, s, f) r).1,
         (dispatchStep tr now uid (st, s, f) r).2.1,
         (dispatchStep tr now uid (st, s, f) r).2.2) := rfl
    rw [List.foldl_cons, heta, ih, dispatchStep_campaign_recipient_count]

theorem foldl_dispatch_counts (tr : Transport) (now uid : Nat) (ps : List Recipient) :
    ∀ (st : SendState) (s f : Nat),
      ((ps.foldl (dispatchStep tr now uid) (st, s, f)).1).campaign.sent_count +
        ((ps.foldl (dispatchStep tr now uid) (st, s, f)).1).campaign.failed_count =
        st.campaign.sent_count + st.campaign.failed_count + ps.length := by
  induction ps with
  | nil => intro st s f; rfl
  | cons r rest ih =>
    intro st s f
    have heta : dispatchStep tr now uid (st, s, f) r =
        ((dispatchStep tr now uid (st, s, f) r).1,
         (dispatchStep tr now uid (st, s, f) r).2.1,
         (dispatchStep tr now uid (st, s, f) r).2.2) := rfl
    rw [List.foldl_cons, heta, ih, List.length_cons]
    rw [dispatchStep_counts]
    omega

theorem rowFold_id (tr : Transport) (now : Nat) (ps : List Recipient) :
    ∀ x : Recipient, (ps.foldl (rowStep tr now) x).id = x.id := by
  induction ps with
  | nil => intro x; rfl
  | cons r rest ih => intro x; rw [List.foldl_cons, ih, rowStep_id]

theorem rowFold_of_not_mem (tr : Transport) (now : Nat) (ps : List Recipient) :
    ∀ x : Recipient, x.id ∉ ps.map (fun r => r.id) → ps.foldl (rowStep tr now) x = x := by
  induction ps with
  | nil => intro x _; rfl
  | cons r rest ih =>
    intro x hx
    simp only [List.map_cons, List.mem_cons, not_or] at hx
    rw [List.foldl_cons, rowStep_of_ne tr now x r hx.1, ih x hx.2]

theorem rowFold_terminal (tr : Transport) (now : Nat) (ps : List Recipient) :
    ∀ x : Recipient, x.id ∈ ps.map (fun r => r.id) →
      (ps.foldl (rowStep tr now) x).status = .sent ∨
      (ps.foldl (rowStep tr now) x).status = .failed := by
  induction ps with
  | nil => intro x hx; simp at hx
  | cons r rest ih =>
    intro x hx
    rw [List.foldl_cons]
    by_cases hmem : (rowStep tr now x r).id ∈ rest.map (fun q => q.id)
    · exact ih _ hmem
    · rw [rowFold_of_not_mem tr now rest _ hmem]
      simp only [List.map_cons, List.mem_cons] at hx
      rcases hx with hx | hx
      · exact rowStep_terminal tr now x r hx
      · exfalso
        rw [rowStep_id] at hmem
        exact hmem hx

/-! Path equations for sendCampaign and small frame lemmas. -/

theorem applyCampaignUpdate_recipients (st : SendState) (cid : Nat) (f : Campaign → Campaign) :
    (applyCampaignUpdate st cid f).recipients = st.recipients := by
  rw [applyCampaignUpdate]
  split <;> rfl

theorem applyCampaignUpdate_logs (st : SendState) (cid : Nat) (f : Campaign → Campaign) :
    (applyCampaignUpdate st cid f).logs = st.logs := by
  rw [applyCampaignUpdate]
  split <;> rfl

theorem applyCampaignUpdate_campaign (st : SendState) (cid : Nat) (f : Campaign → Campaign)
    (hid : st.campaign.id = cid) :
    (applyCampaignUpdate st cid f).campaign = f st.campaign := by
  rw [applyCampaignUpdate, if_pos hid]

theorem sendCampaign_not_found (tr : Transport) (now cid uid : Nat) (st : SendState)
    (h : ¬(st.campaign.id = cid ∧ st.campaign.user_id = uid)) :
    sendCampaign tr now cid uid st =
      (applyCampaignUpdate st cid (fun c => updateCampaignStatus c .failed none none),
       .error "Campaign not found") := by
  rw [sendCampaign, if_neg h]

theorem sendCampaign_not_queued (tr : Transport) (now cid uid : Nat) (st : SendState)
    (hid : st.campaign.id = cid) (huid : st.campaign.user_id = uid)
    (hnq : st.campaign.status ≠ .queued) :
    sendCampaign tr now cid uid st =
      (applyCampaignUpdate st cid (fun c => updateCampaignStatus c .failed none none),
       .error ("Cannot send campaign with status: " ++ statusName st.campaign.status)) := by
  rw [sendCampaign, if_pos (And.intro hid huid), if_pos hnq]

theorem sendCampaign_no_pending (tr : Transport) (now cid uid : Nat) (st : SendState)
    (hid : st.campaign.id = cid) (huid : st.campaign.user_id = uid)
    (hq : st.campaign.status = .queued) (hpe : listPending st = []) :
    sendCampaign tr now cid uid st =
      (applyCampaignUpdate st cid (fun c => updateCampaignStatus c .completed (some now) none),
       .ok (0, 0)) := by
  rw [sendCampaign, if_pos (And.intro hid huid), if_neg (by simp [hq]), if_pos hpe]

theorem sendCampaign_auth_failed (tr : Transport) (now cid uid : Nat) (st : SendState)
    (hid : st.campaign.id = cid) (huid : st.campaign.user_id = uid)
    (hq : st.campaign.status = .queued) (hpe : listPending st ≠ [])
    (hbad : tr.authOk = false) :
    sendCampaign tr now cid uid st =
      (applyCampaignUpdate
        (applyCampaignUpdate st cid (fun c => updateCampaignStatus c .failed none none))
        cid (fun c => updateCampaignStatus c .failed none none),
       .error "SMTP connection failed") := by
  rw [sendCampaign, if_pos (And.intro hid huid), if_neg (by simp [hq]), if_neg hpe,
    if_pos hbad]

theorem sendCampaign_main (tr : Transport) (now cid uid : Nat) (st : SendState)
    (hid : st.campaign.id = cid) (huid : st.campaign.user_id = uid)
    (hq : st.campaign.status = .queued) (hpe : listPending st ≠ [])
    (hauth : tr.authOk = true) :
    sendCampaign tr now cid uid st =
      (applyCampaignUpdate
        ((listPending st).foldl (dispatchStep tr now uid)
          (applyCampaignUpdate st cid
            (fun c => updateCampaignStatus c .sending (some now) none), 0, 0)).1
        cid (fun c => updateCampaignStatus c .completed none (some now)),
       .ok (((listPending st).foldl (dispatchStep tr now uid)
          (applyCampaignUpdate st cid
            (fun c => updateCampaignStatus c .sending (some now) none), 0, 0)).2.1,
         ((listPending st).foldl (dispatchStep tr now uid)
          (applyCampaignUpdate st cid
            (fun c => updateCampaignStatus c .sending (some now) none), 0, 0)).2.2)) := by
  rw [sendCampaign, if_pos (And.intro hid huid), if_neg (by simp [hq]), if_neg hpe,
    if_neg (by simp [hauth])]

/-- C1: for a queued campaign with fresh counters, a dispatch run in which
every loop iteration completes (each transport call either succeeds or its
error is recorded per-recipient — the transport oracle is universally
quantified, so some individual sends may fail) ends with
sent_count + failed_count equal to the number of pending recipients before
the run, no recipient row left in status pending, and the campaign marked
completed, not failed. -/
theorem C1_run_accounts_for_every_recipient (tr : Transport) (now cid uid : Nat)
    (st : SendState)
    (hid : st.campaign.id = cid) (huid : st.campaign.user_id = uid)
    (hq : st.campaign.status = .queued)
    (hs0 : st.campaign.sent_count = 0) (hf0 : st.campaign.failed_count = 0)
    (hauth : tr.authOk = true) :
    ((sendCampaign tr now cid uid st).1).campaign.sent_count +
      ((sendCampaign tr now cid uid st).1).campaign.failed_count =
      (listPending st).length ∧
    (∀ x ∈ ((sendCampaign tr now cid uid st).1).recipients, x.status ≠ .pending) ∧
    ((sendCampaign tr now cid uid st).1).campaign.status = .completed := by
  by_cases hpe : listPending st = []
  · rw [sendCampaign_no_pending tr now cid uid st hid huid hq hpe]
    have hnp : ∀ x ∈ st.recipients, x.status ≠ .pending := by
      intro x hx hxp
      have hmem : x ∈ listPending st := by
        simp [listPending, List.mem_filter, hx, hxp]
      rw [hpe] at hmem
      simp at hmem
    refine ⟨?_, ?_, ?_⟩
    · rw [applyCampaignUpdate_campaign st cid _ hid]
      simp [updateCampaignStatus, hs0, hf0, hpe]
    · intro x hx
      rw [applyCampaignUpdate_recipients] at hx
      exact hnp x hx
    · rw [applyCampaignUpdate_campaign st cid _ hid]
      simp [updateCampaignStatus]
  · rw [sendCampaign_main tr now cid uid st hid huid hq hpe hauth]
    have hid1 : (applyCampaignUpdate st cid
        (fun c => updateCampaignStatus c .sending (some now) none)).campaign.id = cid := by
      rw [applyCampaignUpdate_campaign st cid _ hid]
      simpa [updateCampaignStatus] using hid
    have hfoldid := foldl_dispatch_campaign_id tr now uid (listPending st)
      (applyCampaignUpdate st cid (fun c => updateCampaignStatus c .sending (some now) none)) 0 0
    have hfid : ((listPending st).foldl (dispatchStep tr now uid)
        (applyCampaignUpdate st cid
          (fun c => updateCampaignStatus c .sending (some now) none), 0, 0)).1.campaign.id =
        cid := by rw [hfoldid, hid1]
    refine ⟨?_, ?_, ?_⟩
    · rw [applyCampaignUpdate_campaign _ cid _ hfid]
      have hcounts := foldl_dispatch_counts tr now uid (listPending st)
        (applyCampaignUpdate st cid
          (fun c => updateCampaignStatus c .sending (some now) none)) 0 0
      rw [applyCampaignUpdate_campaign st cid _ hid] at hcounts
      simp only [updateCampaignStatus] at hcounts ⊢
      rw [hcounts, hs0, hf0]
      omega
    · intro x hx
      rw [applyCampaignUpdate_recipients, foldl_dispatch_recipients,
        applyCampaignUpdate_recipients] at hx
      rcases List.mem_map.mp hx with ⟨y, hy, rfl⟩
      by_cases hyid : y.id ∈ (listPending st).map (fun r => r.id)
      · rcases rowFold_terminal tr now (listPending st) y hyid with h | h <;> simp [h]
      · rw [rowFold_of_not_mem tr now _ y hyid]
        intro hyp
        have hymem : y ∈ listPending st := by
          simp [listPending, List.mem_filter, hy, hyp]
        exact hyid (List.mem_map_of_mem _ hymem)
    · rw [applyCampaignUpdate_campaign _ cid _ hfid]
      simp [updateCampaignStatus]

theorem C1_witness :
    ((sendCampaign exTransport 100 1 1 exState).1).campaign.sent_count +
      ((sendCampaign exTransport 100 1 1 exState).1).campaign.failed_count =
      (listPending exState).length ∧
    (∀ x ∈ ((sendCampaign exTransport 100 1 1 exState).1).recipients,
      x.status ≠ .pending) ∧
    ((sendCampaign exTransport 100 1 1 exState).1).campaign.status = .completed :=
  C1_run_accounts_for_every_recipient exTransport 100 1 1 exState rfl rfl rfl rfl rfl rfl

/-- C3 counterexample: re-invoking the Dispatcher on the already completed
campaign of exCompletedState is not a no-op on the campaign record: the
status check throws, and the catch handler then flips the campaign status
from completed to failed. -/
theorem C3_counterexample :
    exCompletedState.campaign.status = .completed ∧
    ((sendCampaign exTransport 30 1 1 exCompletedState).1).campaign.status = .failed ∧
    (sendCampaign exTransport 30 1 1 exCompletedState).1.campaign ≠
      exCompletedState.campaign := by
  decide

/-- C3 amended: re-invoking sendCampaign on a completed campaign sends no
email and touches neither the recipient rows nor the send log, and the call
throws "Cannot send campaign with status: completed"; but it is not a no-op
on the campaign record: the catch handler sets the campaign status to
failed (counters and timestamps are left unchanged). -/
theorem C3_amended_reinvoke_throws_and_marks_failed (tr : Transport) (now cid uid : Nat)
    (st : SendState) (hid : st.campaign.id = cid) (huid : st.campaign.user_id = uid)
    (hc : st.campaign.status = .completed) :
    ((sendCampaign tr now cid uid st).1).recipients = st.recipients ∧
    ((sendCampaign tr now cid uid st).1).logs = st.logs ∧
    (sendCampaign tr now cid uid st).2 =
      .error ("Cannot send campaign with status: " ++ statusName st.campaign.status) ∧
    ((sendCampaign tr now cid uid st).1).campaign.status = .failed ∧
    ((sendCampaign tr now cid uid st).1).campaign.sent_count = st.campaign.sent_count ∧
    ((sendCampaign tr now cid uid st).1).campaign.failed_count = st.campaign.failed_count ∧
    ((sendCampaign tr now cid uid st).1).campaign.started_at = st.campaign.started_at ∧
    ((sendCampaign tr now cid uid st).1).campaign.completed_at = st.campaign.completed_at := by
  rw [sendCampaign_not_queued tr now cid uid st hid huid (by simp [hc])]
  refine ⟨applyCampaignUpdate_recipients st cid _, applyCampaignUpdate_logs st cid _,
    rfl, ?_, ?_, ?_, ?_, ?_⟩ <;>
    rw [applyCampaignUpdate_campaign st cid _ hid] <;> simp [updateCampaignStatus]

theorem C3_witness :
    ((sendCampaign exTransport 30 1 1 exCompletedState).1).recipients =
      exCompletedState.recipients ∧
    ((sendCampaign exTransport 30 1 1 exCompletedState).1).logs = exCompletedState.logs ∧
    (sendCampaign exTransport 30 1 1 exCompletedState).2 =
      .error ("Cannot send campaign with status: " ++
        statusName exCompletedState.campaign.status) ∧
    ((sendCampaign exTransport 30 1 1 exCompletedState).1).campaign.status = .failed ∧
    ((sendCampaign exTransport 30 1 1 exCompletedState).1).campaign.sent_count =
      exCompletedState.campaign.sent_count ∧
    ((sendCampaign exTransport 30 1 1 exCompletedState).1).campaign.failed_count =
      exCompletedState.campaign.failed_count ∧
    ((sendCampaign exTransport 30 1 1 exCompletedState).1).campaign.started_at =
      exCompletedState.campaign.started_at ∧
    ((sendCampaign exTransport 30 1 1 exCompletedState).1).campaign.completed_at =
      exCompletedState.campaign.completed_at :=
  C3_amended_reinvoke_throws_and_marks_failed exTransport 30 1 1 exCompletedState
    rfl rfl rfl

/-- C8: when the transport auth handshake fails before any send attempt, on
a queued campaign with pending recipients and fresh counters, the campaign
transitions to failed with sent_count = 0 and failed_count = 0, no
recipient row is modified (every recipient remains pending), nothing is
logged, and the SMTP connection error is thrown. -/
theorem C8_auth_failure_pre_loop_frame (tr : Transport) (now cid uid : Nat)
    (st : SendState) (hid : st.campaign.id = cid) (huid : st.campaign.user_id = uid)
    (hq : st.campaign.status = .queued) (hpe : listPending st ≠ [])
    (hbad : tr.authOk = false)
    (hs0 : st.campaign.sent_count = 0) (hf0 : st.campaign.failed_count = 0)
    (hall : ∀ x ∈ st.recipients, x.status = .pending) :
    ((sendCampaign tr now cid uid st).1).campaign.status = .failed ∧
    ((sendCampaign tr now cid uid st).1).campaign.sent_count = 0 ∧
    ((sendCampaign tr now cid uid st).1).campaign.failed_count = 0 ∧
    ((sendCampaign tr now cid uid st).1).recipients = st.recipients ∧
    (∀ x ∈ ((sendCampaign tr now cid uid st).1).recipients, x.status = .pending) ∧
    ((sendCampaign tr now cid uid st).1).logs = st.logs ∧
    (sendCampaign tr now cid uid st).2 = .error "SMTP connection failed" := by
  rw [sendCampaign_auth_failed tr now cid uid st hid huid hq hpe hbad]
  have hid2 : (applyCampaignUpdate st cid
      (fun c => updateCampaignStatus c .failed none none)).campaign.id = cid := by
    rw [applyCampaignUpdate_campaign st cid _ hid]
    simpa [updateCampaignStatus] using hid
  refine ⟨?_, ?_, ?_, ?_, ?_, ?_, rfl⟩
  · rw [applyCampaignUpdate_campaign _ cid _ hid2]
    simp [updateCampaignStatus]
  · rw [applyCampaignUpdate_campaign _ cid _ hid2, applyCampaignUpdate_campaign st cid _ hid]
    simp [updateCampaignStatus, hs0]
  · rw [applyCampaignUpdate_campaign _ cid _ hid2, applyCampaignUpdate_campaign st cid _ hid]
    simp [updateCampaignStatus, hf0]
  · rw [applyCampaignUpdate_recipients, applyCampaignUpdate_recipients]
  · intro x hx
    rw [applyCampaignUpdate_recipients, applyCampaignUpdate_recipients] at hx
    exact hall x hx
  · rw [applyCampaignUpdate_logs, applyCampaignUpdate_logs]

theorem C8_witness :
    ((sendCampaign exBadTransport 40 1 1 exState).1).campaign.status = .failed ∧
    ((sendCampaign exBadTransport 40 1 1 exState).1).campaign.sent_count = 0 ∧
    ((sendCampaign exBadTransport 40 1 1 exState).1).campaign.failed_count = 0 ∧
    ((sendCampaign exBadTransport 40 1 1 exState).1).recipients = exState.recipients ∧
    (∀ x ∈ ((sendCampaign exBadTransport 40 1 1 exState).1).recipients,
      x.status = .pending) ∧
    ((sendCampaign exBadTransport 40 1 1 exState).1).logs = exState.logs ∧
    (sendCampaign exBadTransport 40 1 1 exState).2 = .error "SMTP connection failed" :=
  C8_auth_failure_pre_loop_frame exBadTransport 40 1 1 exState rfl rfl rfl
    (by decide) rfl rfl rfl (by decide)

/-- C10: on a queued campaign with zero pending recipients, sendCampaign
returns sent = 0 and failed = 0 and moves the campaign straight to
completed — but on this path updateCampaignStatus is called with a
started_at and no completed_at, so started_at is set to now while
completed_at keeps its old (null) value: a completed campaign can have a
started_at and no completed_at. -/
theorem C10_zero_pending_completes_without_completed_at (tr : Transport)
    (now cid uid : Nat) (st : SendState)
    (hid : st.campaign.id = cid) (huid : st.campaign.user_id = uid)
    (hq : st.campaign.status = .queued) (hpe : listPending st = []) :
    (sendCampaign tr now cid uid st).2 = .ok (0, 0) ∧
    ((sendCampaign tr now cid uid st).1).campaign.status = .completed ∧
    ((sendCampaign tr now cid uid st).1).campaign.started_at = some now ∧
    ((sendCampaign tr now cid uid st).1).campaign.completed_at =
      st.campaign.completed_at ∧
    ((sendCampaign tr now cid uid st).1).recipients = st.recipients ∧
    ((sendCampaign tr now cid uid st).1).logs = st.logs := by
  rw [sendCampaign_no_pending tr now cid uid st hid huid hq hpe]
  refine ⟨rfl, ?_, ?_, ?_, applyCampaignUpdate_recipients st cid _,
    applyCampaignUpdate_logs st cid _⟩ <;>
    rw [applyCampaignUpdate_campaign st cid _ hid] <;> simp [updateCampaignStatus]

theorem C10_witness :
    (sendCampaign exTransport 50 1 1 exNoPendingState).2 = .ok (0, 0) ∧
    ((sendCampaign exTransport 50 1 1 exNoPendingState).1).campaign.status =
      .completed ∧
    ((sendCampaign exTransport 50 1 1 exNoPendingState).1).campaign.started_at =
      some 50 ∧
    ((sendCampaign exTransport 50 1 1 exNoPendingState).1).campaign.completed_at =
      none := by
  have h := C10_zero_pending_completes_without_completed_at exTransport 50 1 1
    exNoPendingState rfl rfl rfl (by decide)
  exact ⟨h.1, h.2.1, h.2.2.1, h.2.2.2.1.trans rfl⟩

/-- C2 counterexample: the mark operations applied to the ledger entry
exFailedRecipient, which is already terminal (status failed), are not
no-ops: markSent overwrites its status to sent and sets sent_at, and
markFailed overwrites its error_message. -/
theorem C2_counterexample :
    exFailedRecipient.status = .failed ∧
    markSent [exFailedRecipient] 7 5 ≠ [exFailedRecipient] ∧
    (markSent [exFailedRecipient] 7 5).map (fun r => r.status) = [.sent] ∧
    markFailed [exFailedRecipient] 7 "another error" ≠ [exFailedRecipient] := by
  decide

theorem id_inj_of_nodup {rs : List Recipient}
    (h : (rs.map (fun r => r.id)).Nodup) {p x : Recipient}
    (hp : p ∈ rs) (hx : x ∈ rs) (hpx : p.id = x.id) : p = x :=
  List.inj_on_of_nodup_map h hp hx hpx

/-- C2 amended: the mark operations are unconditional by-id writes with no
terminal-state guard, but sendCampaign only ever applies them to rows that
were pending when the run started; with unique row ids, every row that is
already terminal is left exactly unchanged, at its position, by re-running
the Dispatcher. -/
theorem C2_amended_run_leaves_terminal_rows_unchanged (tr : Transport)
    (now cid uid : Nat) (st : SendState)
    (hnodup : (st.recipients.map (fun r => r.id)).Nodup) :
    ∀ (i : Nat) (x : Recipient), st.recipients[i]? = some x → x.status ≠ .pending →
      ((sendCampaign tr now cid uid st).1).recipients[i]? = some x := by
  intro i x hix hterm
  by_cases hcond : st.campaign.id = cid ∧ st.campaign.user_id = uid
  · by_cases hq : st.campaign.status = .queued
    · by_cases hpe : listPending st = []
      · rw [sendCampaign_no_pending tr now cid uid st hcond.1 hcond.2 hq hpe,
          applyCampaignUpdate_recipients]
        exact hix
      · by_cases hauth : tr.authOk = true
        · rw [sendCampaign_main tr now cid uid st hcond.1 hcond.2 hq hpe hauth,
            applyCampaignUpdate_recipients, foldl_dispatch_recipients,
            applyCampaignUpdate_recipients, List.getElem?_map, hix]
          have hxmem : x ∈ st.recipients := by
            rcases List.getElem?_eq_some.mp hix with ⟨hlt, hget⟩
            exact hget ▸ List.getElem_mem hlt
          have hnot : x.id ∉ (listPending st).map (fun r => r.id) := by
            intro hmem
            rcases List.mem_map.mp hmem with ⟨p, hp, hpid⟩
            have hp2 := List.mem_filter.mp hp
            have hpp : p.status = .pending := by simpa using hp2.2
            have hpx : p = x := id_inj_of_nodup hnodup hp2.1 hxmem hpid
            exact hterm (hpx ▸ hpp)
          simp only [Option.map_some']
          exact congrArg some (rowFold_of_not_mem tr now _ x hnot)
        · have hbad : tr.authOk = false := by
            cases h : tr.authOk
            · rfl
            · exact absurd h hauth
          rw [sendCampaign_auth_failed tr now cid uid st hcond.1 hcond.2 hq hpe hbad,
            applyCampaignUpdate_recipients, applyCampaignUpdate_recipients]
          exact hix
    · rw [sendCampaign_not_queued tr now cid uid st hcond.1 hcond.2 hq,
        applyCampaignUpdate_recipients]
      exact hix
  · rw [sendCampaign_not_found tr now cid uid st hcond, applyCampaignUpdate_recipients]
    exact hix

theorem C2_witness :
    ((sendCampaign exTransport 60 1 1 exNoPendingState).1).recipients[0]? =
      some ⟨1, "a@x.com", some "Ana", [], .sent, some 5, none⟩ :=
  C2_amended_run_leaves_terminal_rows_unchanged exTransport 60 1 1 exNoPendingState
    (by decide) 0 ⟨1, "a@x.com", some "Ana", [], .sent, some 5, none⟩
    (by decide) (by decide)

/-! Counting lemmas for the loop invariant. -/

theorem countPending_cons (a : Recipient) (as : List Recipient) :
    countPending (a :: as) =
      (if a.status = .pending then 1 else 0) + countPending as := by
  by_cases h : a.status = .pending
  · simp [countPending, List.filter_cons, h]
    omega
  · simp [countPending, List.filter_cons, h]

theorem countPending_mark (tr : Transport) (now : Nat) (r : Recipient) :
    ∀ l : List Recipient, (l.map (fun q => q.id)).Nodup → r ∈ l → r.status = .pending →
      countPending (l.map (fun x => rowStep tr now x r)) + 1 = countPending l := by
  intro l
  induction l with
  | nil => intro _ h; simp at h
  | cons a as ih =>
    intro hnd hmem hpend
    have hnd1 : r.id = a.id → a.id ∉ as.map (fun q => q.id) := by
      intro _
      simp only [List.map_cons, List.nodup_cons] at hnd
      exact hnd.1
    rcases List.mem_cons.mp hmem with rfl | hmem2
    · have hmap : as.map (fun x => rowStep tr now x r) = as := by
        conv_rhs => rw [← List.map_id as]
        refine List.map_congr_left ?_
        intro x hx
        refine rowStep_of_ne tr now x r ?_
        intro heq
        exact hnd1 rfl (heq ▸ List.mem_map_of_mem _ hx)
      rw [List.map_cons, hmap, countPending_cons, countPending_cons]
      rcases rowStep_terminal tr now r r rfl with h | h <;> rw [h] <;> simp [hpend] <;> omega
    · have ha : a.id ≠ r.id := by
        intro heq
        simp only [List.map_cons, List.nodup_cons] at hnd
        exact hnd.1 (heq ▸ List.mem_map_of_mem _ hmem2)
      have hnd2 : (as.map (fun q => q.id)).Nodup := by
        simp only [List.map_cons, List.nodup_cons] at hnd
        exact hnd.2
      rw [List.map_cons, rowStep_of_ne tr now a r ha, countPending_cons, countPending_cons]
      have hrec := ih hnd2 hmem2 hpend
      omega

theorem recipient_ids_map_rowStep (tr : Transport) (now : Nat) (r : Recipient)
    (l : List Recipient) :
    (l.map (fun x => rowStep tr now x r)).map (fun q => q.id) = l.map (fun q => q.id) := by
  rw [List.map_map]
  refine List.map_congr_left ?_
  intro x _
  exact rowStep_id tr now x r

theorem foldl_dispatch_countPending (tr : Transport) (now uid : Nat) :
    ∀ (ps : List Recipient) (st : SendState) (s f : Nat),
      (st.recipients.map (fun q => q.id)).Nodup →
      (∀ p ∈ ps, p ∈ st.recipients ∧ p.status = .pending) →
      ((ps.map (fun q => q.id)).Nodup) →
      countPending (((ps.foldl (dispatchStep tr now uid) (st, s, f)).1).recipients) +
        ps.length = countPending st.recipients := by
  intro ps
  induction ps with
  | nil => intro st s f _ _ _; simp
  | cons r rest ih =>
    intro st s f hndst hp hndps
    have hrmem := hp r (List.mem_cons_self r rest)
    have heta : dispatchStep tr now uid (st, s, f) r =
        ((dispatchStep tr now uid (st, s, f) r).1,
         (dispatchStep tr now uid (st, s, f) r).2.1,
         (dispatchStep tr now uid (st, s, f) r).2.2) := rfl
    have hrec : ((dispatchStep tr now uid (st, s, f) r).1).recipients =
        st.recipients.map (fun x => rowStep tr now x r) :=
      dispatchStep_recipients tr now uid st s f r
    have hndst2 : (((dispatchStep tr now uid (st, s, f) r).1).recipients.map
        (fun q => q.id)).Nodup := by
      rw [hrec, recipient_ids_map_rowStep]
      exact hndst
    have hridnotin : r.id ∉ rest.map (fun q => q.id) := by
      simp only [List.map_cons, List.nodup_cons] at hndps
      exact hndps.1
    have hp2 : ∀ p ∈ rest, p ∈ ((dispatchStep tr now uid (st, s, f) r).1).recipients ∧
        p.status = .pending := by
      intro p hpmem
      have hpid : p.id ≠ r.id := by
        intro heq
        exact hridnotin (heq ▸ List.mem_map_of_mem _ hpmem)
      have hpr := hp p (List.mem_cons_of_mem r hpmem)
      refine ⟨?_, hpr.2⟩
      rw [hrec]
      have : rowStep tr now p r = p := rowStep_of_ne tr now p r hpid
      exact this ▸ List.mem_map_of_mem _ hpr.1
    have hndps2 : (rest.map (fun q => q.id)).Nodup := by
      simp only [List.map_cons, List.nodup_cons] at hndps
      exact hndps.2
    have hihtail := ih ((dispatchStep tr now uid (st, s, f) r).1)
      ((dispatchStep tr now uid (st, s, f) r).2.1)
      ((dispatchStep tr now uid (st, s, f) r).2.2) hndst2 hp2 hndps2
    have hmark := countPending_mark tr now r st.recipients hndst hrmem.1 hrmem.2
    rw [List.foldl_cons, heta]
    rw [hrec] at hihtail
    simp only [List.length_cons]
    omega

/-- C9: at every step of a dispatch run (after each completed loop
iteration), sent_count + failed_count + pending_count equals
recipient_count: each iteration moves exactly one recipient from pending to
a terminal state and increments exactly one campaign counter, so the counts
the Progress Aggregator derives always sum to the total. -/
theorem C9_invariant_at_every_step (tr : Transport) (now cid uid k : Nat)
    (st : SendState)
    (hnodup : (st.recipients.map (fun q => q.id)).Nodup)
    (hinv : st.campaign.sent_count + st.campaign.failed_count +
      countPending st.recipients = st.campaign.recipient_count) :
    ((midLoopState tr now cid uid k st).1).campaign.sent_count +
      ((midLoopState tr now cid uid k st).1).campaign.failed_count +
      countPending (((midLoopState tr now cid uid k st).1).recipients) =
      ((midLoopState tr now cid uid k st).1).campaign.recipient_count := by
  rw [midLoopState]
  set st1 := applyCampaignUpdate st cid
    (fun c => updateCampaignStatus c .sending (some now) none) with hst1
  have hrec1 : st1.recipients = st.recipients := applyCampaignUpdate_recipients st cid _
  have hcamp1 : st1.campaign.sent_count = st.campaign.sent_count ∧
      st1.campaign.failed_count = st.campaign.failed_count ∧
      st1.campaign.recipient_count = st.campaign.recipient_count := by
    rw [hst1, applyCampaignUpdate]
    split <;> simp [updateCampaignStatus]
  have hps : ∀ p ∈ (listPending st).take k, p ∈ st1.recipients ∧ p.status = .pending := by
    intro p hpmem
    have hp2 := List.mem_of_mem_take hpmem
    have hp3 := List.mem_filter.mp hp2
    rw [hrec1]
    exact ⟨hp3.1, by simpa using hp3.2⟩
  have hndtake : (((listPending st).take k).map (fun q => q.id)).Nodup := by
    have hsub : List.Sublist (((listPending st).take k).map (fun q => q.id))
        (st.recipients.map (fun q => q.id)) :=
      List.Sublist.map _ ((List.take_sublist k (listPending st)).trans
        (List.filter_sublist st.recipients))
    exact hnodup.sublist hsub
  have hnd1 : (st1.recipients.map (fun q => q.id)).Nodup := by rw [hrec1]; exact hnodup
  have hcp := foldl_dispatch_countPending tr now uid ((listPending st).take k) st1 0 0
    hnd1 hps hndtake
  have hcounts := foldl_dispatch_counts tr now uid ((listPending st).take k) st1 0 0
  have hrc := foldl_dispatch_campaign_recipient_count tr now uid
    ((listPending st).take k) st1 0 0
  rw [hrec1] at hcp
  omega

theorem C9_witness :
    ((midLoopState exTransport 100 1 1 2 exState).1).campaign.sent_count +
      ((midLoopState exTransport 100 1 1 2 exState).1).campaign.failed_count +
      countPending (((midLoopState exTransport 100 1 1 2 exState).1).recipients) =
      ((midLoopState exTransport 100 1 1 2 exState).1).campaign.recipient_count :=
  C9_invariant_at_every_step exTransport 100 1 1 2 exState (by decide) (by decide)

/-- C6 counterexample: success_rate is not the exact ratio
sent / (sent + failed): calculateProgress rounds it to 4 decimal places
(parseFloat(x.toFixed(4))), so for 1 sent and 2 failed it returns 0.3333,
which differs from 1/3. -/
theorem C6_counterexample :
    (calculateProgress exProgressCampaign).success_rate = 3333 / 10000 ∧
    (calculateProgress exProgressCampaign).success_rate ≠
      (exProgressCampaign.sent_count : ℚ) /
        ((exProgressCampaign.sent_count : ℚ) + exProgressCampaign.failed_count) := by
  constructor
  · simp only [calculateProgress, exProgressCampaign, toFixed4, jsRound]
    norm_num [Int.floor_eq_iff]
  · simp only [calculateProgress, exProgressCampaign, toFixed4, jsRound]
    norm_num [Int.floor_eq_iff]

/-- C6 amended: calculateProgress is total, never dividing by zero: a
zero-recipient campaign gets percentage 0, a campaign with no processed
sends gets success_rate 0; otherwise percentage is (sent+failed)/total*100
rounded to one decimal (Math.round of ten times the value, divided by ten)
and success_rate is sent/(sent+failed) rounded to four decimal places
(parseFloat of toFixed(4)) — not the exact ratio the claim states. -/
theorem C6_amended_progress_guards (c : Campaign) :
    (c.recipient_count = 0 → (calculateProgress c).percentage = 0) ∧
    (c.sent_count + c.failed_count = 0 → (calculateProgress c).success_rate = 0) ∧
    (0 < c.recipient_count → (calculateProgress c).percentage =
      (jsRound (((c.sent_count : ℚ) + c.failed_count) / c.recipient_count * 100 * 10) : ℚ)
        / 10) ∧
    (0 < c.sent_count + c.failed_count → (calculateProgress c).success_rate =
      toFixed4 ((c.sent_count : ℚ) / ((c.sent_count : ℚ) + c.failed_count))) ∧
    (calculateProgress c).total_recipients = c.recipient_count ∧
    (calculateProgress c).sent = c.sent_count ∧
    (calculateProgress c).failed = c.failed_count ∧
    (calculateProgress c).pending =
      (c.recipient_count : Int) - c.sent_count - c.failed_count := by
  refine ⟨?_, ?_, ?_, ?_, rfl, rfl, rfl, rfl⟩ <;> intro h <;> simp [calculateProgress, h]

theorem C6_witness :
    (calculateProgress exEmptyCampaign).percentage = 0 ∧
    (calculateProgress exProgressCampaign).success_rate =
      toFixed4 ((exProgressCampaign.sent_count : ℚ) /
        ((exProgressCampaign.sent_count : ℚ) + exProgressCampaign.failed_count)) :=
  ⟨(C6_amended_progress_guards exEmptyCampaign).1 rfl,
   (C6_amended_progress_guards exProgressCampaign).2.2.2.1 (by decide)⟩

/-- C7 counterexample: with a transport whose auth handshake fails,
triggering POST /:id/send on the draft campaign of exDraftState returns the
plain success response "Campaign sending started": the TransportAuthError
is not surfaced synchronously to the caller; it only reaches the background
run, which marks the campaign failed. -/
theorem C7_counterexample :
    exBadTransport.authOk = false ∧
    (startCampaignSend exBadTransport 70 3 1 true exDraftState).2 =
      .ok "Campaign sending started" ∧
    ((startCampaignSend exBadTransport 70 3 1 true exDraftState).1).campaign.status =
      .failed := by
  decide

/-- C7 amended: the triggering call returns immediately: its response is
computed by the synchronous route alone (for any transport it equals the
route's response), so when the transport auth fails the caller still
receives "Campaign sending started"; the TransportAuthError is recorded
only in the campaign record, as status failed with recipient rows
untouched, and is observed through polling. -/
theorem C7_amended_transport_error_only_in_background (tr : Transport)
    (now cid uid : Nat) (smtpConfigured : Bool) (st : SendState)
    (hid : st.campaign.id = cid) (huid : st.campaign.user_id = uid)
    (hdraft : st.campaign.status = .draft) (hsmtp : smtpConfigured = true)
    (hpe : listPending st ≠ []) (hbad : tr.authOk = false) :
    (startCampaignSend tr now cid uid smtpConfigured st).2 =
      .ok "Campaign sending started" ∧
    ((startCampaignSend tr now cid uid smtpConfigured st).1).campaign.status = .failed ∧
    ((startCampaignSend tr now cid uid smtpConfigured st).1).recipients =
      st.recipients ∧
    (∀ (tr2 : Transport) (n2 c2 u2 : Nat) (b2 : Bool) (s2 : SendState),
      (startCampaignSend tr2 n2 c2 u2 b2 s2).2 = (startCampaignRoute c2 u2 b2 s2).2.1) := by
  have hroute : startCampaignRoute cid uid smtpConfigured st =
      (applyCampaignUpdate st cid (fun c => { c with status := .queued }),
       .ok "Campaign sending started", true) := by
    rw [startCampaignRoute, if_pos (And.intro hid huid), if_neg (by simp [hdraft]),
      if_neg (by simp [hsmtp])]
  have hcamp1 : (applyCampaignUpdate st cid
      (fun c => { c with status := .queued })).campaign = { st.campaign with status := .queued } :=
    applyCampaignUpdate_campaign st cid _ hid
  have hid1 : (applyCampaignUpdate st cid
      (fun c => { c with status := .queued })).campaign.id = cid := by rw [hcamp1]; exact hid
  have huid1 : (applyCampaignUpdate st cid
      (fun c => { c with status := .queued })).campaign.user_id = uid := by
    rw [hcamp1]; exact huid
  have hq1 : (applyCampaignUpdate st cid
      (fun c => { c with status := .queued })).campaign.status = .queued := by rw [hcamp1]
  have hrec1 : (applyCampaignUpdate st cid
      (fun c => { c with status := .queued })).recipients = st.recipients :=
    applyCampaignUpdate_recipients st cid _
  have hpe1 : listPending (applyCampaignUpdate st cid
      (fun c => { c with status := .queued })) ≠ [] := by
    rw [listPending, hrec1]
    rw [listPending] at hpe
    exact hpe
  have hsend := sendCampaign_auth_failed tr now cid uid
    (applyCampaignUpdate st cid (fun c => { c with status := .queued }))
    hid1 huid1 hq1 hpe1 hbad
  have hflow : startCampaignSend tr now cid uid smtpConfigured st =
      (backgroundSend tr now cid uid
        (applyCampaignUpdate st cid (fun c => { c with status := .queued })),
       .ok "Campaign sending started") := by
    rw [startCampaignSend, hroute]
    rfl
  refine ⟨by rw [hflow], ?_, ?_, ?_⟩
  · rw [hflow]
    show ((sendCampaign tr now cid uid _).1).campaign.status = .failed
    rw [hsend]
    have hid2 : (applyCampaignUpdate
        (applyCampaignUpdate st cid (fun c => { c with status := .queued }))
        cid (fun c => updateCampaignStatus c .failed none none)).campaign.id = cid := by
      rw [applyCampaignUpdate_campaign _ cid _ hid1]
      simpa [updateCampaignStatus] using hid1
    rw [applyCampaignUpdate_campaign _ cid _ hid2]
    simp [updateCampaignStatus]
  · rw [hflow]
    show ((sendCampaign tr now cid uid _).1).recipients = st.recipients
    rw [hsend, applyCampaignUpdate_recipients, applyCampaignUpdate_recipients, hrec1]
  · intro tr2 n2 c2 u2 b2 s2
    rcases hr : startCampaignRoute c2 u2 b2 s2 with ⟨a, resp, sch⟩
    simp [startCampaignSend, hr]

theorem C7_witness :
    (startCampaignSend exBadTransport 70 3 1 true exDraftState).2 =
      .ok "Campaign sending started" ∧
    ((startCampaignSend exBadTransport 70 3 1 true exDraftState).1).campaign.status =
      .failed ∧
    ((startCampaignSend exBadTransport 70 3 1 true exDraftState).1).recipients =
      exDraftState.recipients ∧
    (∀ (tr2 : Transport) (n2 c2 u2 : Nat) (b2 : Bool) (s2 : SendState),
      (startCampaignSend tr2 n2 c2 u2 b2 s2).2 = (startCampaignRoute c2 u2 b2 s2).2.1) :=
  C7_amended_transport_error_only_in_background exBadTransport 70 3 1 true exDraftState
    rfl rfl rfl rfl (by decide) rfl

end EmailSender
